import Mathlib

/-!
Verification of the Order Execution & Lifecycle Engine of the
hyperliquid-sentiment-trader repository.

Part 1 models `src/execution/lifecycle.py`: the `PlanStatus` enum, the
`ExecEvent` audit rows, and the `Lifecycle` state machine
(`submit` / `refresh` / `cancel`) together with
`resume_inflight_on_startup`.

Modelling conventions:
* the wall clock (`datetime.now(timezone.utc)`), which the code reads once
  per event write, is modelled as a tick counter that advances on every
  event write (each read returns a fresh, strictly larger value);
* the exchange adapter, which the code calls over the network, is passed
  in as an explicit outcome: `Except String α` where `Except.error msg`
  models the adapter call raising an exception with message `msg`;
* a plan row is passed through explicitly; the database commit/refresh
  plumbing has no observable effect on the fields the claims mention.
-/

namespace HLTrader

/-- `PlanStatus` enum of lifecycle.py. -/
inductive PlanStatus where
  | created
  | submitted
  | partially_filled
  | filled
  | canceled
  | error
deriving DecidableEq, Repr

/-- `TERMINAL_STATUSES = {filled, canceled, error}` (lifecycle.py line 56). -/
def TERMINAL_STATUSES : List PlanStatus :=
  [PlanStatus.filled, PlanStatus.canceled, PlanStatus.error]

/-- `INFLIGHT_STATUSES = {created, submitted, partially_filled}` (lifecycle.py line 57). -/
def INFLIGHT_STATUSES : List PlanStatus :=
  [PlanStatus.created, PlanStatus.submitted, PlanStatus.partially_filled]

/-- One `exec_events` row (lifecycle.py `ExecEvent`); `at_` models the
`at` timestamp column as a clock tick. -/
structure ExecEvent where
  at_ : Nat
  from_status : Option PlanStatus
  to_status : PlanStatus
  event : String
  reason : Option String
deriving DecidableEq, Repr

/-- One `order_plans` row (the fields the claims mention) together with its
event stream. -/
structure RPlan where
  plan_id : String
  status : PlanStatus
  events : List ExecEvent
deriving DecidableEq, Repr

/-- `Lifecycle._log_event` (lifecycle.py lines 176-199): builds an event with
`from_status = plan.status`, stamps it with the current clock, sets
`plan.status = to_status`, commits.  Returns the updated plan and clock. -/
def log_event (p : RPlan) (c : Nat) (to_status : PlanStatus) (ev : String)
    (reason : Option String) : RPlan × Nat :=
  ({ p with
      status := to_status,
      events := p.events ++
        [{ at_ := c, from_status := some p.status, to_status := to_status,
           event := ev, reason := reason }] },
   c + 1)

/-- `Lifecycle.submit` (lifecycle.py lines 201-213).  The guard is
`if plan.status not in {created, error}: return plan`; on adapter success
one `submit` event to `submitted`, on adapter exception one `submit_error`
event to `error`. -/
def Lifecycle.submit (p : RPlan) (c : Nat) (r : Except String Unit) : RPlan × Nat :=
  if p.status = PlanStatus.created ∨ p.status = PlanStatus.error then
    match r with
    | Except.ok _ => log_event p c PlanStatus.submitted "submit" (some "order submitted")
    | Except.error ex => log_event p c PlanStatus.error "submit_error" (some ex)
  else (p, c)

/-- The venue-status mapping of `Lifecycle.refresh` (lifecycle.py lines
223-230): `mapping.get(q.get("status"), PlanStatus.error)`. -/
def statusMapping (s : String) : PlanStatus :=
  if s = "submitted" then PlanStatus.submitted
  else if s = "partially_filled" then PlanStatus.partially_filled
  else if s = "filled" then PlanStatus.filled
  else if s = "canceled" then PlanStatus.canceled
  else if s = "error" then PlanStatus.error
  else PlanStatus.error

/-- `Lifecycle.refresh` (lifecycle.py lines 215-242): no-op on a terminal
plan; otherwise maps the venue status and writes one `refresh` event only
when the mapped status differs; an adapter exception writes one
`refresh_error` event to `error`. -/
def Lifecycle.refresh (p : RPlan) (c : Nat) (q : Except String String) : RPlan × Nat :=
  if p.status ∈ TERMINAL_STATUSES then (p, c)
  else
    match q with
    | Except.ok vs =>
      let new_status := statusMapping vs
      if new_status ≠ p.status then
        log_event p c new_status "refresh" (some ("venue status -> " ++ vs))
      else (p, c)
    | Except.error ex => log_event p c PlanStatus.error "refresh_error" (some ex)

/-- `Lifecycle.cancel` (lifecycle.py lines 244-256): no-op on a terminal
plan; otherwise one `cancel` event to `canceled`, or one `cancel_error`
event to `error` when the adapter call raises. -/
def Lifecycle.cancel (p : RPlan) (c : Nat) (reason : String)
    (r : Except String Unit) : RPlan × Nat :=
  if p.status ∈ TERMINAL_STATUSES then (p, c)
  else
    match r with
    | Except.ok _ => log_event p c PlanStatus.canceled "cancel" (some reason)
    | Except.error ex => log_event p c PlanStatus.error "cancel_error" (some ex)

/-- One API-driven transition together with the adapter outcome it observed. -/
inductive LOp where
  | submit (r : Except String Unit)
  | refresh (q : Except String String)
  | cancel (reason : String) (r : Except String Unit)

/-- Apply one transition to a plan-and-clock state. -/
def applyLOp (pc : RPlan × Nat) : LOp → RPlan × Nat
  | LOp.submit r => Lifecycle.submit pc.1 pc.2 r
  | LOp.refresh q => Lifecycle.refresh pc.1 pc.2 q
  | LOp.cancel reason r => Lifecycle.cancel pc.1 pc.2 reason r

/-- Apply a sequence of transitions. -/
def runLOps (pc : RPlan × Nat) (ops : List LOp) : RPlan × Nat :=
  ops.foldl applyLOp pc

/-- `from_status` chain check: the first event departs from the plan's
initial status; every later event departs from the previous event's
`to_status`. -/
def fromChainB : PlanStatus → List ExecEvent → Bool
  | _, [] => true
  | s, e :: rest => (e.from_status == some s) && fromChainB e.to_status rest

/-- Strict time-ordering of an event list. -/
def strictTimes : List ExecEvent → Bool
  | [] => true
  | [_] => true
  | e1 :: e2 :: rest => (Nat.blt e1.at_ e2.at_) && strictTimes (e2 :: rest)

/-- Invariant tying an event list to the initial status `s0`, a lower time
bound `lb`, the plan's current status `fin` and the clock `ub`. -/
def chainInv (s0 : PlanStatus) (lb : Nat) :
    List ExecEvent → PlanStatus → Nat → Prop
  | [], fin, ub => s0 = fin ∧ lb ≤ ub
  | e :: rest, fin, ub =>
    e.from_status = some s0 ∧ lb ≤ e.at_ ∧ chainInv e.to_status (e.at_ + 1) rest fin ub

theorem chainInv_append {s0 : PlanStatus} {lb : Nat} {es : List ExecEvent}
    {fin : PlanStatus} {ub : Nat} (h : chainInv s0 lb es fin ub)
    (t : PlanStatus) (ev : String) (rs : Option String) :
    chainInv s0 lb
      (es ++ [{ at_ := ub, from_status := some fin, to_status := t,
                event := ev, reason := rs }]) t (ub + 1) := by
  induction es generalizing s0 lb with
  | nil =>
    obtain ⟨h1, h2⟩ := h
    subst h1
    exact ⟨rfl, h2, rfl, Nat.le_refl _⟩
  | cons e rest ih =>
    obtain ⟨h1, h2, h3⟩ := h
    exact ⟨h1, h2, ih h3⟩

theorem chainInv_log_event {s0 : PlanStatus} {p : RPlan} {c : Nat}
    (h : chainInv s0 0 p.events p.status c)
    (t : PlanStatus) (ev : String) (rs : Option String) :
    chainInv s0 0 (log_event p c t ev rs).1.events
      (log_event p c t ev rs).1.status (log_event p c t ev rs).2 :=
  chainInv_append h t ev rs

theorem chainInv_applyLOp {s0 : PlanStatus} {pc : RPlan × Nat}
    (h : chainInv s0 0 pc.1.events pc.1.status pc.2) (op : LOp) :
    chainInv s0 0 (applyLOp pc op).1.events (applyLOp pc op).1.status
      (applyLOp pc op).2 := by
  cases op with
  | submit r =>
    simp only [applyLOp, Lifecycle.submit]
    by_cases hg : pc.1.status = PlanStatus.created ∨ pc.1.status = PlanStatus.error
    · rw [if_pos hg]
      cases r with
      | ok u => exact chainInv_log_event h _ _ _
      | error ex => exact chainInv_log_event h _ _ _
    · rw [if_neg hg]; exact h
  | refresh q =>
    simp only [applyLOp, Lifecycle.refresh]
    by_cases hg : pc.1.status ∈ TERMINAL_STATUSES
    · rw [if_pos hg]; exact h
    · rw [if_neg hg]
      cases q with
      | ok vs =>
        dsimp only
        by_cases hn : statusMapping vs ≠ pc.1.status
        · rw [if_pos hn]; exact chainInv_log_event h _ _ _
        · rw [if_neg hn]; exact h
      | error ex => exact chainInv_log_event h _ _ _
  | cancel reason r =>
    simp only [applyLOp, Lifecycle.cancel]
    by_cases hg : pc.1.status ∈ TERMINAL_STATUSES
    · rw [if_pos hg]; exact h
    · rw [if_neg hg]
      cases r with
      | ok u => exact chainInv_log_event h _ _ _
      | error ex => exact chainInv_log_event h _ _ _

theorem chainInv_runLOps {s0 : PlanStatus} {pc : RPlan × Nat}
    (h : chainInv s0 0 pc.1.events pc.1.status pc.2) (ops : List LOp) :
    chainInv s0 0 (runLOps pc ops).1.events (runLOps pc ops).1.status
      (runLOps pc ops).2 := by
  induction ops generalizing pc with
  | nil => exact h
  | cons op rest ih =>
    exact ih (chainInv_applyLOp h op)

theorem chainInv_fromChainB {s0 : PlanStatus} {lb : Nat} {es : List ExecEvent}
    {fin : PlanStatus} {ub : Nat} (h : chainInv s0 lb es fin ub) :
    fromChainB s0 es = true := by
  induction es generalizing s0 lb with
  | nil => rfl
  | cons e rest ih =>
    obtain ⟨h1, _, h3⟩ := h
    simp only [fromChainB, Bool.and_eq_true, beq_iff_eq]
    exact ⟨h1, ih h3⟩

theorem chainInv_strictTimes {s0 : PlanStatus} {lb : Nat} {es : List ExecEvent}
    {fin : PlanStatus} {ub : Nat} (h : chainInv s0 lb es fin ub) :
    strictTimes es = true := by
  induction es generalizing s0 lb with
  | nil => rfl
  | cons e rest ih =>
    obtain ⟨_, _, h3⟩ := h
    cases rest with
    | nil => rfl
    | cons e2 rest2 =>
      obtain ⟨g1, g2, g3⟩ := h3
      simp only [strictTimes, Bool.and_eq_true]
      refine ⟨?_, ih ⟨g1, g2, g3⟩⟩
      exact (Nat.blt_eq).mpr (Nat.lt_of_succ_le g2)

/-- C1: for every initial status and every sequence of submit/refresh/cancel
transitions applied to a plan, the recorded `ExecEvent`s are strictly
time-ordered, and each event's `from_status` equals the plan's status
immediately before the event was written — the `to_status` of the preceding
event, or the plan's initial status for the first event. -/
theorem spec_C1 (pid : String) (s0 : PlanStatus) (ops : List LOp) :
    fromChainB s0 (runLOps ({ plan_id := pid, status := s0, events := [] }, 0) ops).1.events = true ∧
    strictTimes (runLOps ({ plan_id := pid, status := s0, events := [] }, 0) ops).1.events = true := by
  have h0 : chainInv s0 0
      (({ plan_id := pid, status := s0, events := [] } : RPlan), 0).1.events
      (({ plan_id := pid, status := s0, events := [] } : RPlan), 0).1.status
      (({ plan_id := pid, status := s0, events := [] } : RPlan), 0).2 :=
    ⟨rfl, Nat.le_refl 0⟩
  have h := chainInv_runLOps h0 ops
  exact ⟨chainInv_fromChainB h, chainInv_strictTimes h⟩

/-- C2 as stated is false on the code: `Lifecycle.submit` treats the
terminal status `error` as resubmittable (the guard admits `created` and
`error`), so a plan in the terminal status `error` is mutated by a later
`submit`: at this concrete input its status moves to `submitted`. -/
theorem spec_C2_cex :
    (({ plan_id := "p1", status := PlanStatus.error, events := [] } : RPlan).status ∈ TERMINAL_STATUSES) ∧
    (Lifecycle.submit { plan_id := "p1", status := PlanStatus.error, events := [] } 0
        (Except.ok ())).1.status ≠ PlanStatus.error := by
  constructor
  · decide
  · decide

/-- C2 (amended): once a plan's status is `filled` or `canceled`, no later
submit/refresh/cancel changes anything about it; a plan in the terminal
status `error` is likewise immune to refresh and cancel, but `submit`
treats `error` as retryable and transitions it to `submitted` when the
adapter acks. -/
theorem spec_C2 :
    (∀ (p : RPlan) (c : Nat) (op : LOp),
       p.status = PlanStatus.filled ∨ p.status = PlanStatus.canceled →
       applyLOp (p, c) op = (p, c)) ∧
    (∀ (p : RPlan) (c : Nat) (q : Except String String),
       p.status = PlanStatus.error → Lifecycle.refresh p c q = (p, c)) ∧
    (∀ (p : RPlan) (c : Nat) (reason : String) (r : Except String Unit),
       p.status = PlanStatus.error → Lifecycle.cancel p c reason r = (p, c)) ∧
    (∀ (p : RPlan) (c : Nat),
       p.status = PlanStatus.error →
       (Lifecycle.submit p c (Except.ok ())).1.status = PlanStatus.submitted) := by
  refine ⟨?_, ?_, ?_, ?_⟩
  · intro p c op h
    rcases h with h | h <;> cases op <;>
      simp [applyLOp, Lifecycle.submit, Lifecycle.refresh, Lifecycle.cancel,
        TERMINAL_STATUSES, h]
  · intro p c q h
    simp [Lifecycle.refresh, TERMINAL_STATUSES, h]
  · intro p c reason r h
    simp [Lifecycle.cancel, TERMINAL_STATUSES, h]
  · intro p c h
    simp [Lifecycle.submit, log_event, h]

theorem spec_C2_witness :
    applyLOp ({ plan_id := "w2", status := PlanStatus.filled, events := [] }, 3)
        (LOp.cancel "user_cancel" (Except.ok ())) =
      ({ plan_id := "w2", status := PlanStatus.filled, events := [] }, 3) :=
  spec_C2.1 { plan_id := "w2", status := PlanStatus.filled, events := [] } 3
    (LOp.cancel "user_cancel" (Except.ok ())) (Or.inl rfl)

/-- The raw `resume_check` event written by `resume_inflight_on_startup`
(lifecycle.py lines 266-276): `from_status` and `to_status` are both the
plan's current status. -/
def resumeEvent (s : PlanStatus) (c : Nat) : ExecEvent :=
  { at_ := c, from_status := some s, to_status := s, event := "resume_check",
    reason := some "process resumed - polling venue" }

/-- One iteration of the `resume_inflight_on_startup` loop for one plan:
append the `resume_check` event (one clock tick for its timestamp), then
call `Lifecycle.refresh` on the plan. -/
def resumePlanStep (q : Except String String) (p : RPlan) (c : Nat) : RPlan × Nat :=
  Lifecycle.refresh { p with events := p.events ++ [resumeEvent p.status c] } (c + 1) q

/-- `resume_inflight_on_startup` (lifecycle.py lines 258-280): iterate over
the snapshot of in-flight plans (`status ∈ INFLIGHT_STATUSES`) in store
order.  Each iteration updates exactly the row it selected, addressed by
primary key; this is modelled by transforming that row in place. -/
def resume_inflight_on_startup (adapter : String → Except String String) :
    List RPlan → Nat → List RPlan × Nat
  | [], c => ([], c)
  | p :: ps, c =>
    if p.status ∈ INFLIGHT_STATUSES then
      let r := resumePlanStep (adapter p.plan_id) p c
      let rest := resume_inflight_on_startup adapter ps r.2
      (r.1 :: rest.1, rest.2)
    else
      let rest := resume_inflight_on_startup adapter ps c
      (p :: rest.1, rest.2)

/-- Number of `resume_check` events in an event list. -/
def countResume (es : List ExecEvent) : Nat :=
  (es.filter (fun e => e.event == "resume_check")).length

theorem countResume_log_event (p : RPlan) (c : Nat) (t : PlanStatus)
    (ev : String) (rs : Option String) (h : (ev == "resume_check") = false) :
    countResume (log_event p c t ev rs).1.events = countResume p.events := by
  simp [log_event, countResume, List.filter_append, h]

theorem countResume_refresh (p : RPlan) (c : Nat) (q : Except String String) :
    countResume (Lifecycle.refresh p c q).1.events = countResume p.events := by
  unfold Lifecycle.refresh
  by_cases hg : p.status ∈ TERMINAL_STATUSES
  · rw [if_pos hg]
  · rw [if_neg hg]
    cases q with
    | ok vs =>
      dsimp only
      by_cases hn : statusMapping vs ≠ p.status
      · rw [if_pos hn]; exact countResume_log_event _ _ _ _ _ rfl
      · rw [if_neg hn]
    | error ex => exact countResume_log_event _ _ _ _ _ rfl

/-- C9: `resume_inflight_on_startup` touches exactly the plans whose status
is non-terminal (`created`, `submitted`, `partially_filled`) and no
terminal plan; for each in-flight plan it appends exactly one
`resume_check` event whose `from_status` and `to_status` both equal the
plan's current status, and then calls `refresh()` on that plan
(`resumePlanStep` is literally append-resume-event-then-refresh). -/
theorem spec_C9 (adapter : String → Except String String) (plans : List RPlan) (c : Nat) :
    List.Forall₂ (fun p q =>
      (p.status ∈ INFLIGHT_STATUSES →
        ∃ c2, q = (resumePlanStep (adapter p.plan_id) p c2).1 ∧
          countResume q.events = countResume p.events + 1) ∧
      (p.status ∉ INFLIGHT_STATUSES → q = p))
      plans (resume_inflight_on_startup adapter plans c).1 := by
  induction plans generalizing c with
  | nil => exact List.Forall₂.nil
  | cons p ps ih =>
    unfold resume_inflight_on_startup
    by_cases hg : p.status ∈ INFLIGHT_STATUSES
    · rw [if_pos hg]
      refine List.Forall₂.cons ⟨fun _ => ⟨c, rfl, ?_⟩, fun hn => absurd hg hn⟩ (ih _)
      show countResume (Lifecycle.refresh _ _ _).1.events = _
      rw [countResume_refresh]
      simp [countResume, List.filter_append, resumeEvent]
    · rw [if_neg hg]
      exact List.Forall₂.cons ⟨fun h => absurd h hg, fun _ => rfl⟩ (ih _)

theorem spec_C9_witness :
    List.Forall₂ (fun p q =>
      (p.status ∈ INFLIGHT_STATUSES →
        ∃ c2, q = (resumePlanStep ((fun _ => Except.ok "filled") p.plan_id) p c2).1 ∧
          countResume q.events = countResume p.events + 1) ∧
      (p.status ∉ INFLIGHT_STATUSES → q = p))
      [{ plan_id := "w9a", status := PlanStatus.submitted, events := [] },
       { plan_id := "w9b", status := PlanStatus.filled, events := [] }]
      (resume_inflight_on_startup (fun _ => Except.ok "filled")
        [{ plan_id := "w9a", status := PlanStatus.submitted, events := [] },
         { plan_id := "w9b", status := PlanStatus.filled, events := [] }] 0).1 :=
  spec_C9 (fun _ => Except.ok "filled")
    [{ plan_id := "w9a", status := PlanStatus.submitted, events := [] },
     { plan_id := "w9b", status := PlanStatus.filled, events := [] }] 0

/-!
Part 2 models `src/execution/executor.py`, `src/execution/risk.py` and
`src/execution/brokers.py` (the sqlite-backed scheduler world).

Modelling conventions:
* prices, quantities and notionals are ℚ (the claims are about control
  flow under comparisons, not about float rounding);
* `PxAdapter.mark`, which performs network I/O and can raise, is a
  function `String → Except String ℚ`; `Except.error msg` models the call
  raising with message `msg`;
* a broker is a function `PlaceArgs → Except String BrokerAck`;
  `Except.error` models `place_market` raising;
* the sqlite tables are lists of rows; `date(created_at)` is the row's
  `day` field and `date('now')` the sweep's `today` parameter;
* `XState.brokerCalls` records every `place_market` invocation (what a
  mock broker would record), whether or not the call then raises.
-/

/-- One `order_plans` row of the executor schema (schema.py), restricted to
the fields the claims mention; `tif` is nullable (`p["tif"] or "IOC"`). -/
structure PlanRowX where
  id : String
  user_id : String
  symbol : String
  side : String
  qty : ℚ
  tif : Option String
  reduce_only : Bool
  sl_price : Option ℚ
  status : String
  broker_order_id : Option String
  day : Nat
deriving DecidableEq, Repr

/-- Arguments of one `Broker.place_market` invocation. -/
structure PlaceArgs where
  symbol : String
  side : String
  qty : ℚ
  tif : String
  reduce_only : Bool
  client_order_id : String
deriving DecidableEq, Repr

/-- `BrokerAck` (brokers.py): `status` is `"ack"` or `"rejected"`; the
`detail` dict is modelled by its `error` and `fill_px` entries. -/
structure BrokerAck where
  broker_order_id : String
  status : String
  detail_error : Option String
  detail_fill_px : Option ℚ
deriving DecidableEq, Repr

/-- One `exec_events` row written by `Executor._emit`; the `detail_json`
payload is modelled by its `ack` / `mark` / `reason` entries. -/
structure EEventX where
  plan_id : String
  event : String
  ack : Option BrokerAck
  mark : Option ℚ
  reason : Option String
deriving DecidableEq, Repr

/-- The executor-side database plus the record of broker invocations. -/
structure XState where
  plans : List PlanRowX
  events : List EEventX
  brokerCalls : List PlaceArgs
deriving DecidableEq, Repr

/-- `check_risk` (risk.py lines 7-14).  `limit_daily` is `float | None`;
Python's `if limit_daily and ...` treats both `None` and `0` as falsy, so
the daily check runs only for `some l` with `l ≠ 0`.  The unused
`max_slippage_bps` parameter is omitted. -/
def check_risk (qty mark_price day_used_notional : ℚ) (limit_daily : Option ℚ) :
    Except String Unit :=
  if qty ≤ 0 then Except.error "Qty <= 0"
  else
    match limit_daily with
    | some l =>
      if l ≠ 0 ∧ day_used_notional + qty * mark_price > l then
        Except.error "Daily notional limit exceeded"
      else Except.ok ()
    | none => Except.ok ()

/-- The used-notional query of `process_created_plans` (executor.py lines
72-78): `SUM(qty * mark)` over the user's rows of the current day whose
status is in `('sent','acked','filled')`. -/
def usedNotional (plans : List PlanRowX) (user : String) (mark : ℚ) (today : Nat) : ℚ :=
  ((plans.filter (fun r =>
      r.user_id == user && r.day == today &&
        (r.status == "sent" || r.status == "acked" || r.status == "filled"))).map
    (fun r => r.qty * mark)).sum

/-- `UPDATE order_plans SET ... WHERE id=?`: transform the row with the
given primary key. -/
def updPlan (plans : List PlanRowX) (pid : String) (f : PlanRowX → PlanRowX) :
    List PlanRowX :=
  plans.map (fun r => if r.id = pid then f r else r)

/-- The `place_market` arguments the submission sweep builds for a plan
(executor.py lines 83-90): the plan's own id is the client order id. -/
def sweepArgs (p : PlanRowX) : PlaceArgs :=
  { symbol := p.symbol, side := p.side, qty := p.qty, tif := p.tif.getD "IOC",
    reduce_only := p.reduce_only, client_order_id := p.id }

/-- The `try:` block of `process_created_plans` for one plan (executor.py
lines 80-121): risk gate, then broker call, then status update and exactly
one event.  A `RiskError` sets the plan `rejected` and emits a `reject`
event; a broker ack maps `"ack"` to `"acked"` and anything else to
`"rejected"` with one `sent` event; any other exception (modelled: the
broker call raising) sets the plan `rejected` and emits an `error` event
with the exception text. -/
def processGuarded (broker : PlaceArgs → Except String BrokerAck)
    (limit : Option ℚ) (p : PlanRowX) (mark used : ℚ) (st : XState) : XState :=
  match check_risk p.qty mark used limit with
  | Except.error msg =>
    { st with
      plans := updPlan st.plans p.id (fun r => { r with status := "rejected" }),
      events := st.events ++
        [{ plan_id := p.id, event := "reject", ack := none, mark := none,
           reason := some msg }] }
  | Except.ok _ =>
    match broker (sweepArgs p) with
    | Except.error ex =>
      { st with
        plans := updPlan st.plans p.id (fun r => { r with status := "rejected" }),
        events := st.events ++
          [{ plan_id := p.id, event := "error", ack := none, mark := none,
             reason := some ex }],
        brokerCalls := st.brokerCalls ++ [sweepArgs p] }
    | Except.ok ack =>
      let new_status := if ack.status = "ack" then "acked" else "rejected"
      { st with
        plans := updPlan st.plans p.id (fun r =>
          { r with status := new_status, broker_order_id := some ack.broker_order_id }),
        events := st.events ++
          [{ plan_id := p.id, event := "sent", ack := some ack, mark := some mark,
             reason := none }],
        brokerCalls := st.brokerCalls ++ [sweepArgs p] }

/-- The per-plan loop of `process_created_plans` (executor.py lines 54-121).
The mark-price fetch and the used-notional query sit OUTSIDE the per-plan
`try:`, exactly as in the source: a failing mark fetch escapes the loop,
returning the state reached so far and the escaped exception text; the
remaining plans are not processed. -/
def processPlans (px : String → Except String ℚ)
    (broker : PlaceArgs → Except String BrokerAck) (limit : Option ℚ) (today : Nat) :
    List PlanRowX → XState → XState × Option String
  | [], st => (st, none)
  | p :: rest, st =>
    match px p.symbol with
    | Except.error ex => (st, some ex)
    | Except.ok mark =>
      let used := usedNotional st.plans p.user_id mark today
      processPlans px broker limit today rest (processGuarded broker limit p mark used st)

/-- `Executor.process_created_plans` (executor.py lines 50-123): sweep over
the snapshot of rows with `status='created'`. -/
def process_created_plans (px : String → Except String ℚ)
    (broker : PlaceArgs → Except String BrokerAck) (limit : Option ℚ) (today : Nat)
    (st : XState) : XState × Option String :=
  processPlans px broker limit today (st.plans.filter (fun r => r.status == "created")) st

/-- The stop-loss trigger test (executor.py lines 136-138). -/
def slHit (side : String) (mark sl : ℚ) : Bool :=
  (side == "buy" && decide (mark ≤ sl)) || (side == "sell" && decide (mark ≥ sl))

/-- The closing-order arguments of the stop-loss monitor (executor.py lines
147-154): opposite side, the plan's original qty, `IOC`, `reduce_only`,
client order id derived from the plan id. -/
def slArgs (r : PlanRowX) : PlaceArgs :=
  { symbol := r.symbol, side := if r.side == "buy" then "sell" else "buy",
    qty := r.qty, tif := "IOC", reduce_only := true,
    client_order_id := r.id ++ "-sl" }

/-- Eligibility filter of the stop-loss monitor (executor.py lines 128-132):
non-null `sl_price` and status in `('acked','partially_filled')`. -/
def slEligible (r : PlanRowX) : Bool :=
  r.sl_price.isSome && (r.status == "acked" || r.status == "partially_filled")

/-- The per-row loop of `sl_daemon_tick` (executor.py lines 133-161): fetch
the mark (a failure escapes the tick), test the trigger, and on a hit place
one closing order, emit one `sl_trigger` event carrying the ack and the
observed mark, and set the plan `filled`.  A broker raise also escapes the
tick (there is no per-row handler). -/
def slGo (px : String → Except String ℚ)
    (broker : PlaceArgs → Except String BrokerAck) :
    List PlanRowX → XState → XState × Option String
  | [], st => (st, none)
  | r :: rest, st =>
    match px r.symbol with
    | Except.error ex => (st, some ex)
    | Except.ok mark =>
      if slHit r.side mark (r.sl_price.getD 0) then
        match broker (slArgs r) with
        | Except.error ex =>
          ({ st with brokerCalls := st.brokerCalls ++ [slArgs r] }, some ex)
        | Except.ok ack =>
          slGo px broker rest
            { st with
              brokerCalls := st.brokerCalls ++ [slArgs r],
              events := st.events ++
                [{ plan_id := r.id, event := "sl_trigger", ack := some ack,
                   mark := some mark, reason := none }],
              plans := updPlan st.plans r.id (fun q => { q with status := "filled" }) }
      else slGo px broker rest st

/-- `Executor.sl_daemon_tick` (executor.py lines 125-163). -/
def sl_daemon_tick (px : String → Except String ℚ)
    (broker : PlaceArgs → Except String BrokerAck) (st : XState) : XState × Option String :=
  slGo px broker (st.plans.filter slEligible) st

/-- `SimBroker.place_market` (brokers.py lines 35-55): fills immediately at
the oracle's current mark; the only way it raises is the mark fetch itself
raising, which propagates. -/
def SimBroker.place_market (px : String → Except String ℚ) (args : PlaceArgs) :
    Except String BrokerAck :=
  match px args.symbol with
  | Except.error ex => Except.error ex
  | Except.ok fill_px =>
    Except.ok
      { broker_order_id := "sim-" ++ args.client_order_id, status := "ack",
        detail_error := none, detail_fill_px := some fill_px }

/-- Outcome of the HyperLiquid SDK call inside
`HyperliquidBroker.place_market` (brokers.py lines 136-193): a parsed fill,
a venue error status, an unexpected response shape, or the SDK call raising
(transport failure). -/
inductive HLOutcome where
  | filled (oid : String) (avgPx : ℚ) (totalSz : ℚ)
  | verr (msg : String)
  | unexpected
  | exc (msg : String)
deriving DecidableEq, Repr

/-- `HyperliquidBroker.place_market` (brokers.py lines 117-193).  Every
branch RETURNS a `BrokerAck`: the `except Exception` handler catches
transport failures too and returns them as a `rejected` ack with the error
text in `detail`. -/
def HyperliquidBroker.place_market (outcome : HLOutcome) (args : PlaceArgs) : BrokerAck :=
  match outcome with
  | HLOutcome.filled oid avgPx _ =>
    { broker_order_id := oid, status := "ack", detail_error := none,
      detail_fill_px := some avgPx }
  | HLOutcome.verr msg =>
    { broker_order_id := "", status := "rejected", detail_error := some msg,
      detail_fill_px := none }
  | HLOutcome.unexpected =>
    { broker_order_id := "", status := "rejected",
      detail_error := some "unexpected response", detail_fill_px := none }
  | HLOutcome.exc msg =>
    { broker_order_id := "", status := "rejected", detail_error := some msg,
      detail_fill_px := none }

/-- `HyperliquidBroker.place_market` viewed through the raise-or-return
interface the callers use: it always returns (`Except.ok`), never raises. -/
def HyperliquidBroker.place_market_x (outcome : HLOutcome) (args : PlaceArgs) :
    Except String BrokerAck :=
  Except.ok (HyperliquidBroker.place_market outcome args)

theorem processGuarded_risk (broker : PlaceArgs → Except String BrokerAck)
    (limit : Option ℚ) (p : PlanRowX) (mark used : ℚ) (st : XState) (msg : String)
    (h : check_risk p.qty mark used limit = Except.error msg) :
    processGuarded broker limit p mark used st =
      { st with
        plans := updPlan st.plans p.id (fun r => { r with status := "rejected" }),
        events := st.events ++
          [{ plan_id := p.id, event := "reject", ack := none, mark := none,
             reason := some msg }] } := by
  unfold processGuarded
  rw [h]

theorem processGuarded_broker_exc (broker : PlaceArgs → Except String BrokerAck)
    (limit : Option ℚ) (p : PlanRowX) (mark used : ℚ) (st : XState) (ex : String)
    (hok : check_risk p.qty mark used limit = Except.ok ())
    (hb : broker (sweepArgs p) = Except.error ex) :
    processGuarded broker limit p mark used st =
      { st with
        plans := updPlan st.plans p.id (fun r => { r with status := "rejected" }),
        events := st.events ++
          [{ plan_id := p.id, event := "error", ack := none, mark := none,
             reason := some ex }],
        brokerCalls := st.brokerCalls ++ [sweepArgs p] } := by
  unfold processGuarded
  rw [hok, hb]

theorem processGuarded_ack (broker : PlaceArgs → Except String BrokerAck)
    (limit : Option ℚ) (p : PlanRowX) (mark used : ℚ) (st : XState) (ack : BrokerAck)
    (hok : check_risk p.qty mark used limit = Except.ok ())
    (hb : broker (sweepArgs p) = Except.ok ack) :
    processGuarded broker limit p mark used st =
      { st with
        plans := updPlan st.plans p.id (fun r =>
          { r with status := if ack.status = "ack" then "acked" else "rejected",
                   broker_order_id := some ack.broker_order_id }),
        events := st.events ++
          [{ plan_id := p.id, event := "sent", ack := some ack, mark := some mark,
             reason := none }],
        brokerCalls := st.brokerCalls ++ [sweepArgs p] } := by
  unfold processGuarded
  rw [hok, hb]

theorem check_risk_nonpos {qty : ℚ} (mark used : ℚ) (limit : Option ℚ)
    (h : qty ≤ 0) : check_risk qty mark used limit = Except.error "Qty <= 0" := by
  unfold check_risk
  rw [if_pos h]

theorem processPlans_nonpos (px : String → Except String ℚ)
    (broker : PlaceArgs → Except String BrokerAck) (limit : Option ℚ) (today : Nat) :
    ∀ (l : List PlanRowX) (st : XState), (∀ p ∈ l, p.qty ≤ 0) →
      (processPlans px broker limit today l st).1.brokerCalls = st.brokerCalls := by
  intro l
  induction l with
  | nil => intro st _; rfl
  | cons p rest ih =>
    intro st h
    have hp : p.qty ≤ 0 := h p (List.mem_cons_self p rest)
    unfold processPlans
    cases hpx : px p.symbol with
    | error ex => rfl
    | ok mark =>
      dsimp only
      rw [ih _ (fun q hq => h q (List.mem_cons_of_mem p hq))]
      rw [processGuarded_risk broker limit p mark _ st "Qty <= 0"
        (check_risk_nonpos _ _ _ hp)]

/-- C5: `check_risk` raises exactly when `qty ≤ 0` or a truthy daily limit
is exceeded by `day_used_notional + qty * mark_price`; when it raises
during the scheduler sweep the plan goes straight to the `rejected`
terminal state with the check's message as the event reason and the broker
is untouched (the `brokerCalls` record is left unchanged — in particular a
sweep over a plan with `qty ≤ 0` records zero broker invocations). -/
theorem spec_C5 :
    (∀ (qty mark used : ℚ) (limit : Option ℚ),
      (∃ msg, check_risk qty mark used limit = Except.error msg) ↔
        (qty ≤ 0 ∨ ∃ l, limit = some l ∧ l ≠ 0 ∧ used + qty * mark > l)) ∧
    (∀ (broker : PlaceArgs → Except String BrokerAck) (limit : Option ℚ)
      (p : PlanRowX) (mark used : ℚ) (st : XState) (msg : String),
      check_risk p.qty mark used limit = Except.error msg →
      processGuarded broker limit p mark used st =
        { st with
          plans := updPlan st.plans p.id (fun r => { r with status := "rejected" }),
          events := st.events ++
            [{ plan_id := p.id, event := "reject", ack := none, mark := none,
               reason := some msg }] }) ∧
    (∀ (px : String → Except String ℚ) (broker : PlaceArgs → Except String BrokerAck)
      (limit : Option ℚ) (today : Nat) (p : PlanRowX),
      p.qty ≤ 0 →
      (process_created_plans px broker limit today
        { plans := [p], events := [], brokerCalls := [] }).1.brokerCalls = []) := by
  refine ⟨?_, ?_, ?_⟩
  · intro qty mark used limit
    constructor
    · rintro ⟨msg, hmsg⟩
      by_cases hq : qty ≤ 0
      · exact Or.inl hq
      · cases limit with
        | none =>
          exfalso
          unfold check_risk at hmsg
          rw [if_neg hq] at hmsg
          exact Except.noConfusion hmsg
        | some l =>
          by_cases hc : l ≠ 0 ∧ used + qty * mark > l
          · exact Or.inr ⟨l, rfl, hc.1, hc.2⟩
          · exfalso
            unfold check_risk at hmsg
            rw [if_neg hq] at hmsg
            dsimp only at hmsg
            rw [if_neg hc] at hmsg
            exact Except.noConfusion hmsg
    · intro h
      by_cases hq : qty ≤ 0
      · exact ⟨"Qty <= 0", check_risk_nonpos _ _ _ hq⟩
      · rcases h with hq2 | ⟨l, rfl, hl, hgt⟩
        · exact absurd hq2 hq
        · refine ⟨"Daily notional limit exceeded", ?_⟩
          unfold check_risk
          rw [if_neg hq]
          dsimp only
          rw [if_pos ⟨hl, hgt⟩]
  · intro broker limit p mark used st msg h
    exact processGuarded_risk broker limit p mark used st msg h
  · intro px broker limit today p hq
    have hall : ∀ r ∈ ([p] : List PlanRowX).filter (fun r => r.status == "created"),
        r.qty ≤ 0 := by
      intro r hr
      have hmem := (List.mem_filter.mp hr).1
      have hrp : r = p := by simpa using hmem
      rw [hrp]; exact hq
    unfold process_created_plans
    dsimp only
    rw [processPlans_nonpos px broker limit today _ _ hall]

def pW5 : PlanRowX :=
  { id := "w5", user_id := "u", symbol := "BTCUSDT", side := "buy", qty := -1,
    tif := none, reduce_only := false, sl_price := none, status := "created",
    broker_order_id := none, day := 0 }

def xW5 : XState := { plans := [pW5], events := [], brokerCalls := [] }

def brokerW5 : PlaceArgs → Except String BrokerAck := fun args =>
  Except.ok
    { broker_order_id := "sim-" ++ args.client_order_id, status := "ack",
      detail_error := none, detail_fill_px := none }

theorem spec_C5_witness :
    processGuarded brokerW5 none pW5 5 0 xW5 =
      { xW5 with
        plans := updPlan xW5.plans pW5.id (fun r => { r with status := "rejected" }),
        events := xW5.events ++
          [{ plan_id := pW5.id, event := "reject", ack := none, mark := none,
             reason := some "Qty <= 0" }] } :=
  spec_C5.2.1 brokerW5 none pW5 5 0 xW5 "Qty <= 0" rfl

/-- C10 as stated is false on the code in its last clause: Python's
`if limit_daily and ...` is truthy for any nonzero float, so the strictly
negative limit `-1` — which is not strictly positive — also triggers the
daily-limit rejection at this concrete input. -/
theorem spec_C10_cex :
    check_risk 1 1 0 (some (-1)) = Except.error "Daily notional limit exceeded" ∧
      ¬ (0 : ℚ) < -1 := by
  constructor
  · unfold check_risk
    rw [if_neg (by norm_num)]
    dsimp only
    rw [if_pos (by constructor <;> norm_num)]
  · norm_num

/-- C10 (amended): a `limit_daily` of `0` (like `None`) disables the
daily-notional check entirely — for `qty > 0`, `check_risk` returns
normally however large `day_used_notional + qty * mark_price` is, and with
no limit the daily-limit rejection is impossible; only a NONZERO (not
necessarily positive) `limit_daily` can cause the daily-limit
rejection. -/
theorem spec_C10 :
    (∀ qty mark used : ℚ, 0 < qty →
      check_risk qty mark used none = Except.ok () ∧
        check_risk qty mark used (some 0) = Except.ok ()) ∧
    (∀ qty mark used : ℚ,
      check_risk qty mark used none ≠ Except.error "Daily notional limit exceeded") ∧
    (∀ qty mark used l : ℚ,
      check_risk qty mark used (some l) = Except.error "Daily notional limit exceeded" →
        l ≠ 0) := by
  refine ⟨?_, ?_, ?_⟩
  · intro qty mark used hq
    have hnq : ¬ qty ≤ 0 := not_le.mpr hq
    constructor
    · unfold check_risk
      rw [if_neg hnq]
    · unfold check_risk
      rw [if_neg hnq]
      dsimp only
      rw [if_neg (fun hc => hc.1 rfl)]
  · intro qty mark used h
    by_cases hq : qty ≤ 0
    · rw [check_risk_nonpos _ _ _ hq] at h
      rw [Except.error.injEq] at h
      exact absurd h (by decide)
    · unfold check_risk at h
      rw [if_neg hq] at h
      exact Except.noConfusion h
  · intro qty mark used l h hl0
    subst hl0
    by_cases hq : qty ≤ 0
    · rw [check_risk_nonpos _ _ _ hq] at h
      rw [Except.error.injEq] at h
      exact absurd h (by decide)
    · unfold check_risk at h
      rw [if_neg hq] at h
      dsimp only at h
      rw [if_neg (fun hc => hc.1 rfl)] at h
      exact Except.noConfusion h

theorem spec_C10_witness :
    check_risk 1 1 (10 ^ 9) none = Except.ok () ∧
      check_risk 1 1 (10 ^ 9) (some 0) = Except.ok () :=
  spec_C10.1 1 1 (10 ^ 9) (by decide)

def pC6 : PlanRowX :=
  { id := "c6", user_id := "u", symbol := "BTCUSDT", side := "buy", qty := 1,
    tif := none, reduce_only := false, sl_price := none, status := "created",
    broker_order_id := none, day := 0 }

def pxC6 : String → Except String ℚ := fun _ => Except.ok 5

def brokerC6 : PlaceArgs → Except String BrokerAck := fun args =>
  Except.ok
    { broker_order_id := "sim-" ++ args.client_order_id, status := "ack",
      detail_error := none, detail_fill_px := some 5 }

/-- C6 as stated is false on the code: the sweep maps a broker ack to the
status string `"acked"`, not `"submitted"` — at this concrete input (one
created plan, price feed returning 5, broker acking) the swept plan's
status is `"acked"`. -/
theorem spec_C6_cex :
    ((process_created_plans pxC6 brokerC6 none 0
        { plans := [pC6], events := [], brokerCalls := [] }).1.plans.map
      (fun r => r.status) = ["acked"]) ∧ ("acked" : String) ≠ "submitted" := by
  constructor
  · rfl
  · decide

/-- C6 (amended): the sweep emits exactly one event per processed plan and
maps the outcome as the code does: a broker ack with status `"ack"` yields
plan status `"acked"` (any other returned ack status yields `"rejected"`),
both via one `sent` event; a broker call that raises yields status
`"rejected"` with one `error` event carrying the exception text; a risk
failure yields status `"rejected"` with one `reject` event carrying the
check's message. -/
theorem spec_C6 :
    (∀ (broker : PlaceArgs → Except String BrokerAck) (limit : Option ℚ)
      (p : PlanRowX) (mark used : ℚ) (st : XState),
      (processGuarded broker limit p mark used st).events.length =
        st.events.length + 1) ∧
    (∀ (broker : PlaceArgs → Except String BrokerAck) (limit : Option ℚ)
      (p : PlanRowX) (mark used : ℚ) (st : XState) (ack : BrokerAck),
      check_risk p.qty mark used limit = Except.ok () →
      broker (sweepArgs p) = Except.ok ack →
      processGuarded broker limit p mark used st =
        { st with
          plans := updPlan st.plans p.id (fun r =>
            { r with status := if ack.status = "ack" then "acked" else "rejected",
                     broker_order_id := some ack.broker_order_id }),
          events := st.events ++
            [{ plan_id := p.id, event := "sent", ack := some ack, mark := some mark,
               reason := none }],
          brokerCalls := st.brokerCalls ++ [sweepArgs p] }) ∧
    (∀ (broker : PlaceArgs → Except String BrokerAck) (limit : Option ℚ)
      (p : PlanRowX) (mark used : ℚ) (st : XState) (ex : String),
      check_risk p.qty mark used limit = Except.ok () →
      broker (sweepArgs p) = Except.error ex →
      processGuarded broker limit p mark used st =
        { st with
          plans := updPlan st.plans p.id (fun r => { r with status := "rejected" }),
          events := st.events ++
            [{ plan_id := p.id, event := "error", ack := none, mark := none,
               reason := some ex }],
          brokerCalls := st.brokerCalls ++ [sweepArgs p] }) ∧
    (∀ (broker : PlaceArgs → Except String BrokerAck) (limit : Option ℚ)
      (p : PlanRowX) (mark used : ℚ) (st : XState) (msg : String),
      check_risk p.qty mark used limit = Except.error msg →
      processGuarded broker limit p mark used st =
        { st with
          plans := updPlan st.plans p.id (fun r => { r with status := "rejected" }),
          events := st.events ++
            [{ plan_id := p.id, event := "reject", ack := none, mark := none,
               reason := some msg }] }) := by
  refine ⟨?_, ?_, ?_, ?_⟩
  · intro broker limit p mark used st
    cases hcr : check_risk p.qty mark used limit with
    | error msg =>
      rw [processGuarded_risk broker limit p mark used st msg hcr]
      simp
    | ok u =>
      cases u
      cases hb : broker (sweepArgs p) with
      | error ex =>
        rw [processGuarded_broker_exc broker limit p mark used st ex hcr hb]
        simp
      | ok ack =>
        rw [processGuarded_ack broker limit p mark used st ack hcr hb]
        simp
  · intro broker limit p mark used st ack hcr hb
    exact processGuarded_ack broker limit p mark used st ack hcr hb
  · intro broker limit p mark used st ex hcr hb
    exact processGuarded_broker_exc broker limit p mark used st ex hcr hb
  · intro broker limit p mark used st msg hcr
    exact processGuarded_risk broker limit p mark used st msg hcr

def pC6w : PlanRowX :=
  { id := "c6w", user_id := "u", symbol := "BTCUSDT", side := "buy", qty := 1,
    tif := none, reduce_only := false, sl_price := none, status := "created",
    broker_order_id := none, day := 0 }

def xC6w : XState := { plans := [pC6w], events := [], brokerCalls := [] }

def ackC6w : BrokerAck :=
  { broker_order_id := "sim-c6w", status := "ack", detail_error := none,
    detail_fill_px := some 5 }

def brokerC6w : PlaceArgs → Except String BrokerAck := fun args =>
  Except.ok
    { broker_order_id := "sim-" ++ args.client_order_id, status := "ack",
      detail_error := none, detail_fill_px := some 5 }

theorem spec_C6_witness :
    processGuarded brokerC6w none pC6w 5 0 xC6w =
      { xC6w with
        plans := updPlan xC6w.plans pC6w.id (fun r =>
          { r with status := if ackC6w.status = "ack" then "acked" else "rejected",
                   broker_order_id := some ackC6w.broker_order_id }),
        events := xC6w.events ++
          [{ plan_id := pC6w.id, event := "sent", ack := some ackC6w,
             mark := some 5, reason := none }],
        brokerCalls := xC6w.brokerCalls ++ [sweepArgs pC6w] } :=
  spec_C6.2.1 brokerC6w none pC6w 5 0 xC6w ackC6w rfl rfl

def pBadC7 : PlanRowX :=
  { id := "bad", user_id := "u", symbol := "XRPUSDT", side := "buy", qty := 1,
    tif := none, reduce_only := false, sl_price := none, status := "created",
    broker_order_id := none, day := 0 }

def pGoodC7 : PlanRowX :=
  { id := "good", user_id := "u", symbol := "BTCUSDT", side := "buy", qty := 1,
    tif := none, reduce_only := false, sl_price := none, status := "created",
    broker_order_id := none, day := 0 }

def pxC7 : String → Except String ℚ := fun s =>
  if s == "XRPUSDT" then Except.error "price feed down" else Except.ok 5

def brokerC7 : PlaceArgs → Except String BrokerAck := fun args =>
  Except.ok
    { broker_order_id := "sim-" ++ args.client_order_id, status := "ack",
      detail_error := none, detail_fill_px := some 5 }

/-- C7: the mark-price fetch sits OUTSIDE the per-plan `try:` of
`process_created_plans`, so when the price feed raises for the first plan
(symbol XRPUSDT) the exception escapes the sweep and the second, healthy
plan is not processed in that pass: the state is returned exactly as it
was (the good plan still `created`, no event, no broker call) together
with the escaped exception.  This contradicts the spec's per-plan
exception-isolation guarantee, which is the clear intent of the per-plan
`try/except` in the same loop — a code bug. -/
theorem spec_C7 :
    process_created_plans pxC7 brokerC7 none 0
        { plans := [pBadC7, pGoodC7], events := [], brokerCalls := [] } =
      ({ plans := [pBadC7, pGoodC7], events := [], brokerCalls := [] },
        some "price feed down") := by
  rfl

/-- C4: on a stop-loss monitor pass, an eligible row (non-null `sl_price`,
status `acked` or `partially_filled`) is triggered exactly when
(side = buy and mark ≤ sl) or (side = sell and mark ≥ sl); on a hit the
tick places exactly one opposite-side `reduce_only` IOC market order for
the plan's original qty with client order id `plan_id ++ "-sl"`, records
exactly one `sl_trigger` event carrying the closing order's ack and the
observed mark, and sets the plan's status to `filled`; a no-hit row leaves
the state untouched; and a `filled` plan is no longer eligible, so a plan
triggers at most once across subsequent passes. -/
theorem spec_C4 :
    (∀ (side : String) (mark sl : ℚ),
      slHit side mark sl = true ↔
        ((side = "buy" ∧ mark ≤ sl) ∨ (side = "sell" ∧ mark ≥ sl))) ∧
    (∀ (px : String → Except String ℚ) (broker : PlaceArgs → Except String BrokerAck)
      (r : PlanRowX) (rest : List PlanRowX) (st : XState) (mark : ℚ) (ack : BrokerAck),
      px r.symbol = Except.ok mark →
      slHit r.side mark (r.sl_price.getD 0) = true →
      broker (slArgs r) = Except.ok ack →
      slGo px broker (r :: rest) st =
        slGo px broker rest
          { st with
            brokerCalls := st.brokerCalls ++ [slArgs r],
            events := st.events ++
              [{ plan_id := r.id, event := "sl_trigger", ack := some ack,
                 mark := some mark, reason := none }],
            plans := updPlan st.plans r.id (fun q => { q with status := "filled" }) }) ∧
    (∀ (px : String → Except String ℚ) (broker : PlaceArgs → Except String BrokerAck)
      (r : PlanRowX) (rest : List PlanRowX) (st : XState) (mark : ℚ),
      px r.symbol = Except.ok mark →
      slHit r.side mark (r.sl_price.getD 0) = false →
      slGo px broker (r :: rest) st = slGo px broker rest st) ∧
    (∀ r : PlanRowX, r.status = "filled" → slEligible r = false) := by
  refine ⟨?_, ?_, ?_, ?_⟩
  · intro side mark sl
    simp [slHit, Bool.or_eq_true, Bool.and_eq_true, beq_iff_eq, decide_eq_true_eq]
  · intro px broker r rest st mark ack hpx hhit hb
    simp only [slGo]
    rw [hpx]
    dsimp only
    rw [hhit, if_pos rfl, hb]
  · intro px broker r rest st mark hpx hhit
    simp only [slGo]
    rw [hpx]
    dsimp only
    rw [hhit, if_neg Bool.false_ne_true]
  · intro r h
    unfold slEligible
    rw [h]
    rw [show (("filled" == "acked") || ("filled" == "partially_filled")) = false from rfl]
    exact Bool.and_false _

def rC4 : PlanRowX :=
  { id := "c4", user_id := "u", symbol := "ETHUSDT", side := "buy", qty := 2,
    tif := none, reduce_only := false, sl_price := some 100, status := "acked",
    broker_order_id := none, day := 0 }

def xC4 : XState := { plans := [rC4], events := [], brokerCalls := [] }

def pxC4 : String → Except String ℚ := fun _ => Except.ok 99

def ackC4 : BrokerAck :=
  { broker_order_id := "sim-c4-sl", status := "ack", detail_error := none,
    detail_fill_px := some 99 }

def brokerC4 : PlaceArgs → Except String BrokerAck := fun args =>
  Except.ok
    { broker_order_id := "sim-" ++ args.client_order_id, status := "ack",
      detail_error := none, detail_fill_px := some 99 }

theorem spec_C4_witness :
    slGo pxC4 brokerC4 [rC4] xC4 =
      slGo pxC4 brokerC4 []
        { xC4 with
          brokerCalls := xC4.brokerCalls ++ [slArgs rC4],
          events := xC4.events ++
            [{ plan_id := rC4.id, event := "sl_trigger", ack := some ackC4,
               mark := some 99, reason := none }],
          plans := updPlan xC4.plans rC4.id (fun q => { q with status := "filled" }) } :=
  spec_C4.2.1 pxC4 brokerC4 rC4 [] xC4 99 ackC4 rfl (by decide) rfl

def argsC8 : PlaceArgs :=
  { symbol := "BTCUSDT", side := "buy", qty := 1, tif := "IOC",
    reduce_only := true, client_order_id := "x-sl" }

/-- C8 as stated is false on the code: `HyperliquidBroker.place_market`
wraps the whole order path in `except Exception` and RETURNS transport
failures as a `rejected` ack — at this concrete input a raised
"Connection timeout" comes back as `Except.ok` (a returned result), not as
a raised exception. -/
theorem spec_C8_cex :
    HyperliquidBroker.place_market_x (HLOutcome.exc "Connection timeout") argsC8 =
      Except.ok
        { broker_order_id := "", status := "rejected",
          detail_error := some "Connection timeout", detail_fill_px := none } := by
  rfl

/-- C8 (amended): both broker variants return ordinary venue rejections as
a result with status `"rejected"` and never raise them; the Hyperliquid
broker additionally catches transport-level failures and returns them as
`"rejected"` results too (its order path never raises), while the sim
broker raises exactly when the mark-price feed raises — and the sweep
treats such a raising `place_market` as an `error` event with the
exception text, the plan ending `rejected`. -/
theorem spec_C8 :
    (∀ (o : HLOutcome) (args : PlaceArgs),
      ∃ ack, HyperliquidBroker.place_market_x o args = Except.ok ack) ∧
    (∀ (msg : String) (args : PlaceArgs),
      HyperliquidBroker.place_market (HLOutcome.verr msg) args =
        { broker_order_id := "", status := "rejected", detail_error := some msg,
          detail_fill_px := none }) ∧
    (∀ (msg : String) (args : PlaceArgs),
      HyperliquidBroker.place_market (HLOutcome.exc msg) args =
        { broker_order_id := "", status := "rejected", detail_error := some msg,
          detail_fill_px := none }) ∧
    (∀ (px : String → Except String ℚ) (args : PlaceArgs) (fp : ℚ),
      px args.symbol = Except.ok fp →
      SimBroker.place_market px args =
        Except.ok
          { broker_order_id := "sim-" ++ args.client_order_id, status := "ack",
            detail_error := none, detail_fill_px := some fp }) ∧
    (∀ (px : String → Except String ℚ) (args : PlaceArgs) (ex : String),
      px args.symbol = Except.error ex →
      SimBroker.place_market px args = Except.error ex) ∧
    (∀ (broker : PlaceArgs → Except String BrokerAck) (limit : Option ℚ)
      (p : PlanRowX) (mark used : ℚ) (st : XState) (ex : String),
      check_risk p.qty mark used limit = Except.ok () →
      broker (sweepArgs p) = Except.error ex →
      processGuarded broker limit p mark used st =
        { st with
          plans := updPlan st.plans p.id (fun r => { r with status := "rejected" }),
          events := st.events ++
            [{ plan_id := p.id, event := "error", ack := none, mark := none,
               reason := some ex }],
          brokerCalls := st.brokerCalls ++ [sweepArgs p] }) := by
  refine ⟨?_, ?_, ?_, ?_, ?_, ?_⟩
  · intro o args
    cases o with
    | filled oid avgPx totalSz => exact ⟨_, rfl⟩
    | verr msg => exact ⟨_, rfl⟩
    | unexpected => exact ⟨_, rfl⟩
    | exc msg => exact ⟨_, rfl⟩
  · intro msg args; rfl
  · intro msg args; rfl
  · intro px args fp h
    unfold SimBroker.place_market
    rw [h]
  · intro px args ex h
    unfold SimBroker.place_market
    rw [h]
  · intro broker limit p mark used st ex hcr hb
    exact processGuarded_broker_exc broker limit p mark used st ex hcr hb

def argsC8w : PlaceArgs :=
  { symbol := "BTCUSDT", side := "buy", qty := 1, tif := "IOC",
    reduce_only := false, client_order_id := "w8" }

def pxC8w : String → Except String ℚ := fun _ => Except.error "read timeout"

theorem spec_C8_witness :
    SimBroker.place_market pxC8w argsC8w = Except.error "read timeout" :=
  spec_C8.2.2.2.2.1 pxC8w argsC8w "read timeout" rfl

/-!
Part 3 models `src/execution/api_trade.py`: symbol normalization, the
idempotency-key deriver and the `/api/trade/manual` handler with its
5-minute dedupe window and upsert-on-conflict.

Modelling conventions:
* the mark price fetched from the feed is an input `mark : ℚ`; the fresh
  uuid is an input `new_id`; `datetime('now')` is an input `now : Nat` in
  seconds, so the SQL window `created_at > now − 5 minutes` is
  `now < created_at + 300`;
* `_mk_idempotency_key` returns sha256 of a canonical JSON dump of a
  payload; the digest and the fixed-precision numeric formatting are
  deterministic functions of the payload, so two calls derive the same key
  exactly when they build the same payload — the payload stands in for the
  64-hex digest.
-/

/-- `_norm_symbol` (api_trade.py lines 19-23): uppercase, strip, and append
the default quote suffix `USDT` unless the symbol already ends in
`USDT`/`USDC`/`USD`. -/
def _norm_symbol (s : String) : String :=
  let s := s.toUpper.trim
  if s.endsWith "USDT" || s.endsWith "USDC" || s.endsWith "USD" then s
  else s ++ "USDT"

/-- The canonical payload hashed by `_mk_idempotency_key` (api_trade.py
lines 38-45). -/
structure IdemPayload where
  user_id : String
  symbol : String
  side : String
  qty : ℚ
  sl_price : Option ℚ
  signal_ref : String
deriving DecidableEq, Repr

/-- `_mk_idempotency_key` (api_trade.py lines 25-47), modelled by the
payload it hashes (see the part header). -/
def _mk_idempotency_key (user_id symbol side : String) (qty : ℚ)
    (sl_price : Option ℚ) (signal_ref : String) : IdemPayload :=
  { user_id := user_id.trim, symbol := _norm_symbol symbol,
    side := side.toLower.trim, qty := qty, sl_price := sl_price,
    signal_ref := signal_ref.trim }

/-- The `/api/trade/manual` request body (api_trade.py `ManualReq`). -/
structure ManualReq where
  user_id : String
  signal_ref : String
  symbol : String
  side : String
  size_type : String
  size_value : ℚ
  leverage : ℚ
  sl_type : Option String
  sl_value : Option ℚ
deriving DecidableEq, Repr

/-- One `order_plans` row as written by `trade_manual` (the fields the
claim mentions). -/
structure TRow where
  id : String
  user_id : String
  signal_ref : String
  symbol : String
  side : String
  qty : ℚ
  sl_price : Option ℚ
  source : String
  status : String
  created_at : Nat
  updated_at : Nat
  idempotency_key : IdemPayload
deriving DecidableEq, Repr

/-- The JSON body `trade_manual` returns. -/
structure TradeResp where
  plan_id : String
  symbol : String
  mark : ℚ
  qty : ℚ
  cooldown : Bool
deriving DecidableEq, Repr

/-- `qty = size_value * leverage / mark` (api_trade.py lines 79-80). -/
def manualQty (req : ManualReq) (mark : ℚ) : ℚ :=
  req.size_value * req.leverage / mark

/-- The stop-loss price derivation (api_trade.py lines 83-85): only for
`sl_type = "percent"` with a truthy (non-null, nonzero) `sl_value`. -/
def manualSl (req : ManualReq) (mark : ℚ) : Option ℚ :=
  match req.sl_type, req.sl_value with
  | some t, some v =>
    if t = "percent" ∧ v ≠ 0 then
      some (if req.side = "buy" then mark * (1 - v) else mark * (1 + v))
    else none
  | _, _ => none

/-- The idempotency key `trade_manual` derives (api_trade.py lines 88-95). -/
def manualKey (req : ManualReq) (mark : ℚ) : IdemPayload :=
  _mk_idempotency_key req.user_id (_norm_symbol req.symbol) req.side
    (manualQty req mark) (manualSl req mark) req.signal_ref

/-- The row the `INSERT` writes (api_trade.py lines 116-134). -/
def manualRow (req : ManualReq) (mark : ℚ) (new_id : String) (now : Nat) : TRow :=
  { id := new_id, user_id := req.user_id, signal_ref := req.signal_ref,
    symbol := _norm_symbol req.symbol, side := req.side,
    qty := manualQty req mark, sl_price := manualSl req mark,
    source := "manual", status := "created", created_at := now,
    updated_at := now, idempotency_key := manualKey req mark }

/-- The dedupe query (api_trade.py lines 98-106): rows of the same user and
signal_ref with `source='manual'` created within the last 5 minutes. -/
def dupCheck (plans : List TRow) (user_id signal_ref : String) (now : Nat) :
    List TRow :=
  plans.filter (fun r =>
    r.user_id == user_id && r.signal_ref == signal_ref && r.source == "manual" &&
      decide (now < r.created_at + 300))

/-- `SELECT id FROM order_plans WHERE idempotency_key=?` (first hit). -/
def findByKey (plans : List TRow) (k : IdemPayload) : Option TRow :=
  plans.find? (fun r => r.idempotency_key == k)

/-- The `INSERT ... ON CONFLICT(idempotency_key) DO UPDATE SET updated_at =
excluded.updated_at` of api_trade.py lines 116-134, against the unique
index on `idempotency_key`: a conflicting row only gets its `updated_at`
refreshed, otherwise the row is appended. -/
def upsertPlan (plans : List TRow) (row : TRow) : List TRow :=
  if plans.any (fun r => r.idempotency_key == row.idempotency_key) then
    plans.map (fun r =>
      if r.idempotency_key == row.idempotency_key then
        { r with updated_at := row.updated_at }
      else r)
  else plans ++ [row]

/-- `trade_manual` (api_trade.py lines 61-143): validation, normalization,
key derivation, the dedupe lookup (returning the existing plan's id on a
hit), and otherwise the upsert followed by the re-select by key. -/
def trade_manual (req : ManualReq) (mark : ℚ) (new_id : String) (now : Nat)
    (store : List TRow) : Except String (List TRow × TradeResp) :=
  if req.side ≠ "buy" ∧ req.side ≠ "sell" then
    Except.error "side must be buy/sell"
  else if req.size_type ≠ "fixed_usd" then
    Except.error "only size_type=fixed_usd is supported in this step"
  else if mark ≤ 0 then Except.error "bad mark price"
  else
    match dupCheck store req.user_id req.signal_ref now with
    | d :: _ =>
      Except.ok (store,
        { plan_id :=
            (match findByKey store (manualKey req mark) with
             | some r => r.id
             | none => d.id),
          symbol := _norm_symbol req.symbol, mark := mark,
          qty := manualQty req mark, cooldown := true })
    | [] =>
      Except.ok (upsertPlan store (manualRow req mark new_id now),
        { plan_id :=
            (match findByKey (upsertPlan store (manualRow req mark new_id now))
                (manualKey req mark) with
             | some r => r.id
             | none => new_id),
          symbol := _norm_symbol req.symbol, mark := mark,
          qty := manualQty req mark, cooldown := false })

theorem dupCheck_empty_mono {plans : List TRow} {u s : String} {t1 t2 : Nat}
    (h : dupCheck plans u s t1 = []) (ht : t1 ≤ t2) :
    dupCheck plans u s t2 = [] := by
  unfold dupCheck at h ⊢
  rw [List.filter_eq_nil] at h ⊢
  intro r hr hpred
  apply h r hr
  simp only [Bool.and_eq_true, decide_eq_true_eq] at hpred ⊢
  exact ⟨⟨hpred.1.1, hpred.1.2⟩, Nat.lt_of_le_of_lt ht hpred.2⟩

theorem findByKey_none_any {plans : List TRow} {k : IdemPayload}
    (h : findByKey plans k = none) :
    plans.any (fun r => r.idempotency_key == k) = false := by
  unfold findByKey at h
  rw [List.find?_eq_none] at h
  rw [List.any_eq_false]
  exact h

theorem findByKey_none_filter {plans : List TRow} {k : IdemPayload}
    (h : findByKey plans k = none) :
    plans.filter (fun r => r.idempotency_key == k) = [] := by
  unfold findByKey at h
  rw [List.find?_eq_none] at h
  rw [List.filter_eq_nil]
  exact h

theorem find?_append_of_none {α : Type} {p : α → Bool} {l1 l2 : List α}
    (h : l1.find? p = none) : (l1 ++ l2).find? p = l2.find? p := by
  induction l1 with
  | nil => rfl
  | cons a l ih =>
    cases hpa : p a with
    | true =>
      exfalso
      simp only [List.find?, hpa] at h
      exact Option.noConfusion h
    | false =>
      rw [List.cons_append]
      simp only [List.find?, hpa] at h ⊢
      exact ih h

/-- C3: two manual-trade submissions with the same logical intent (same
user_id, side, signal_ref, sizing and stop-loss inputs — hence same qty
and sl_price — and the same symbol up to case and default-quote-suffix
normalization) within the 5-minute dedupe window derive the same
idempotency key; the first call inserts exactly one row and returns its
id, the second call returns the existing plan's id with the store
untouched, exactly one row carries the key, and the upsert-on-conflict
only refreshes `updated_at`, never creating a second row. -/
theorem spec_C3 (req : ManualReq) (sym2 : String) (mark : ℚ)
    (id1 id2 : String) (t1 t2 : Nat) (store : List TRow)
    (hside : req.side = "buy" ∨ req.side = "sell")
    (hst : req.size_type = "fixed_usd")
    (hmark : 0 < mark)
    (hsym : _norm_symbol sym2 = _norm_symbol req.symbol)
    (hdup : dupCheck store req.user_id req.signal_ref t1 = [])
    (hnokey : findByKey store (manualKey req mark) = none)
    (ht12 : t1 ≤ t2) (ht2 : t2 < t1 + 300) :
    manualKey { req with symbol := sym2 } mark = manualKey req mark ∧
    trade_manual req mark id1 t1 store =
      Except.ok (store ++ [manualRow req mark id1 t1],
        { plan_id := id1, symbol := _norm_symbol req.symbol, mark := mark,
          qty := manualQty req mark, cooldown := false }) ∧
    trade_manual { req with symbol := sym2 } mark id2 t2
        (store ++ [manualRow req mark id1 t1]) =
      Except.ok (store ++ [manualRow req mark id1 t1],
        { plan_id := id1, symbol := _norm_symbol sym2, mark := mark,
          qty := manualQty { req with symbol := sym2 } mark, cooldown := true }) ∧
    ((store ++ [manualRow req mark id1 t1]).filter
      (fun r => r.idempotency_key == manualKey req mark)).length = 1 ∧
    (∀ (plans : List TRow) (row : TRow),
      plans.any (fun r => r.idempotency_key == row.idempotency_key) = true →
      upsertPlan plans row =
        plans.map (fun r =>
          if r.idempotency_key == row.idempotency_key then
            { r with updated_at := row.updated_at }
          else r)) := by
  have hside' : ¬(req.side ≠ "buy" ∧ req.side ≠ "sell") := by
    rcases hside with h | h
    · exact fun hc => hc.1 h
    · exact fun hc => hc.2 h
  have hst' : ¬(req.size_type ≠ "fixed_usd") := fun hc => hc hst
  have hmark' : ¬(mark ≤ 0) := not_le.mpr hmark
  have hkeq : manualKey { req with symbol := sym2 } mark = manualKey req mark := by
    unfold manualKey _mk_idempotency_key manualQty manualSl
    dsimp only
    rw [hsym]
  have hups : upsertPlan store (manualRow req mark id1 t1) =
      store ++ [manualRow req mark id1 t1] := by
    unfold upsertPlan
    have hany := findByKey_none_any hnokey
    dsimp only [manualRow]
    rw [hany, if_neg Bool.false_ne_true]
  have hfind : findByKey (store ++ [manualRow req mark id1 t1]) (manualKey req mark) =
      some (manualRow req mark id1 t1) := by
    unfold findByKey at hnokey ⊢
    rw [find?_append_of_none hnokey]
    simp [List.find?, manualRow]
  have hcall1 : trade_manual req mark id1 t1 store =
      Except.ok (store ++ [manualRow req mark id1 t1],
        { plan_id := id1, symbol := _norm_symbol req.symbol, mark := mark,
          qty := manualQty req mark, cooldown := false }) := by
    unfold trade_manual
    rw [if_neg hside', if_neg hst', if_neg hmark', hdup]
    dsimp only
    rw [hups, hfind]
    rfl
  have hdup2 : dupCheck (store ++ [manualRow req mark id1 t1])
      req.user_id req.signal_ref t2 = [manualRow req mark id1 t1] := by
    unfold dupCheck
    rw [List.filter_append]
    have h1 := dupCheck_empty_mono hdup ht12
    unfold dupCheck at h1
    rw [h1]
    simp [List.filter_cons, manualRow, ht2]
  have hcall2 : trade_manual { req with symbol := sym2 } mark id2 t2
      (store ++ [manualRow req mark id1 t1]) =
      Except.ok (store ++ [manualRow req mark id1 t1],
        { plan_id := id1, symbol := _norm_symbol sym2, mark := mark,
          qty := manualQty { req with symbol := sym2 } mark, cooldown := true }) := by
    unfold trade_manual
    dsimp only
    rw [if_neg hside', if_neg hst', if_neg hmark', hdup2]
    dsimp only
    rw [hkeq, hfind]
    rfl
  refine ⟨hkeq, hcall1, hcall2, ?_, ?_⟩
  · rw [List.filter_append, findByKey_none_filter hnokey]
    simp [List.filter_cons, manualRow]
  · intro plans row hany
    unfold upsertPlan
    rw [hany, if_pos rfl]

def reqW3 : ManualReq :=
  { user_id := "u1", signal_ref := "sig-1", symbol := "BTCUSDT", side := "buy",
    size_type := "fixed_usd", size_value := 100, leverage := 2,
    sl_type := some "percent", sl_value := some (1 / 50) }

theorem spec_C3_witness :
    trade_manual { reqW3 with symbol := "BTCUSDT" } 50000 "id2" 100
        ([] ++ [manualRow reqW3 50000 "id1" 0]) =
      Except.ok ([] ++ [manualRow reqW3 50000 "id1" 0],
        { plan_id := "id1", symbol := _norm_symbol "BTCUSDT", mark := 50000,
          qty := manualQty { reqW3 with symbol := "BTCUSDT" } 50000, cooldown := true }) :=
  (spec_C3 reqW3 "BTCUSDT" 50000 "id1" "id2" 0 100 [] (Or.inl rfl) rfl (by norm_num)
    rfl rfl rfl (by decide) (by decide)).2.2.1

end HLTrader
